import Mathlib

/-!
# Verification of the traefik auth-converter middleware

Shallow embedding of the extended variant of `authconverter.go`
(the one with five token sources and configurable `sourceType` /
`targetType`; per the design notes it supersedes the simpler
four-source variant).  Go strings are byte sequences, modelled as
`List Nat` with one entry per byte.  `base64.StdEncoding` is modelled
faithfully: padded standard alphabet, `\r` (13) and `\n` (10) bytes
ignored, any other byte outside the alphabet rejected, padding only in
the final quantum.
-/

deriving instance DecidableEq for Except

namespace TraefikAuthConverter

/-- A Go string: a sequence of bytes. -/
abbrev Str := List Nat

/-- Byte sequence of an ASCII string literal, for transcribing the Go
string constants. -/
def strBytes (s : String) : Str := s.toList.map Char.toNat

/-- Go constant `username TokenSource = "username"`. -/
def username : Str := strBytes "username"

/-- Go constant `password TokenSource = "password"`. -/
def password : Str := strBytes "password"

/-- Go constant `unchanged TokenSource = "full"`. -/
def unchanged : Str := strBytes "full"

/-- Go constant `decoded TokenSource = "decoded"`. -/
def decoded : Str := strBytes "decoded"

/-- Go constant `combined TokenSource = "combined"`. -/
def combined : Str := strBytes "combined"

/-- Go constant `basic AuthType = "Basic"`. -/
def basic : Str := strBytes "Basic"

/-- Go constant `bearer AuthType = "Bearer"`. -/
def bearer : Str := strBytes "Bearer"

/-- Go constant `digest AuthType = "Digest"`. -/
def digest : Str := strBytes "Digest"

/-- Model of Go `strings.SplitN(s, sep, 2)` for a one-byte separator:
`some (before, after)` when the separator occurs (the Go call returns a
two-element slice), `none` when it does not (the Go call returns a
one-element slice, i.e. `len != 2`). -/
def splitFirst (sep : Nat) : Str → Option (Str × Str)
  | [] => none
  | b :: rest =>
    if b = sep then some ([], rest)
    else
      match splitFirst sep rest with
      | none => none
      | some (l, r) => some (b :: l, r)

/-- The standard base64 alphabet, as bytes. -/
def b64Alphabet : Str :=
  strBytes "ABCDEFGHIJKLMNOPQRSTUVWXYZabcdefghijklmnopqrstuvwxyz0123456789+/"

/-- Byte of the standard-alphabet character with the given sextet value. -/
def b64Char (i : Nat) : Nat := b64Alphabet.getD i 0

/-- Position of a byte in a byte list, if present. -/
def idxIn (b : Nat) : Str → Option Nat
  | [] => none
  | a :: rest => if a = b then some 0 else (idxIn b rest).map (· + 1)

/-- Sextet value of a standard-alphabet byte; `none` for any byte
outside the alphabet (in particular for the padding byte 61). -/
def b64Index (b : Nat) : Option Nat := idxIn b b64Alphabet

/-- Model of Go `base64.StdEncoding.EncodeToString`: three input bytes
per four-character quantum, with `=` (byte 61) padding on a final
partial quantum. -/
def encodeBase64 : Str → Str
  | [] => []
  | [a] => [b64Char (a / 4), b64Char (a % 4 * 16), 61, 61]
  | [a, b] => [b64Char (a / 4), b64Char (a % 4 * 16 + b / 16), b64Char (b % 16 * 4), 61]
  | a :: b :: c :: rest =>
    b64Char (a / 4) :: b64Char (a % 4 * 16 + b / 16) ::
      b64Char (b % 16 * 4 + c / 64) :: b64Char (c % 64) :: encodeBase64 rest

/-- Decode a stream of four-byte base64 quanta (newline bytes already
removed): padding is allowed only in the final quantum (`xx==` or
`xxx=`), and anything else — a partial quantum, a byte outside the
alphabet, padding followed by more data — fails.  Non-strict like Go's
default `StdEncoding`: trailing bits of a padded quantum are ignored. -/
def decodeBlocks : Str → Option Str
  | [] => some []
  | c1 :: c2 :: c3 :: c4 :: rest =>
    match b64Index c1, b64Index c2 with
    | some i1, some i2 =>
      if c3 = 61 ∧ c4 = 61 ∧ rest = [] then
        some [i1 * 4 + i2 / 16]
      else
        match b64Index c3 with
        | some i3 =>
          if c4 = 61 ∧ rest = [] then
            some [i1 * 4 + i2 / 16, i2 % 16 * 16 + i3 / 4]
          else
            match b64Index c4 with
            | some i4 =>
              match decodeBlocks rest with
              | some tail =>
                some ((i1 * 4 + i2 / 16) :: (i2 % 16 * 16 + i3 / 4) :: (i3 % 4 * 64 + i4) :: tail)
              | none => none
            | none => none
        | none => none
    | _, _ => none
  | _ => none

/-- Model of Go `base64.StdEncoding.DecodeString`: `\r` (13) and `\n`
(10) bytes are skipped, then the remainder is decoded quantum by
quantum. -/
def decodeBase64 (s : Str) : Option Str :=
  decodeBlocks (s.filter (fun b => !(b == 13 || b == 10)))

/-- The failure kinds of `getToken`, one per `errors.New` site, in
source order: "invalid authorization header contents", "invalid
authorization type", "Base64 decoding failed", "partial ", "invalid
value in authorization header", "invalid token source". -/
inductive ExtractionError where
  | malformedHeader
  | schemeMismatch
  | decodeError
  | unsupportedSourceForSplit
  | malformedCredential
  | invalidTokenSource
  deriving DecidableEq

/-- Go `Config` struct of the extended variant. -/
structure Config where
  tokenSource : Str
  encodeToken : Bool
  sourceType : Str
  targetType : Str
  deriving DecidableEq

/-- Model of `(e *AuthConverter) getToken(header string) (string, error)`. -/
def getToken (cfg : Config) (header : Str) : Except ExtractionError Str :=
  match splitFirst 32 header with
  | none => .error .malformedHeader
  | some (scheme, payload) =>
    if scheme ≠ cfg.sourceType then .error .schemeMismatch
    else if cfg.tokenSource = unchanged then .ok payload
    else
      match decodeBase64 payload with
      | none => .error .decodeError
      | some dec =>
        if cfg.tokenSource = decoded then .ok dec
        else if cfg.sourceType ≠ basic then .error .unsupportedSourceForSplit
        else
          match splitFirst 58 dec with
          | none => .error .malformedCredential
          | some (l, r) =>
            if cfg.tokenSource = username then .ok l
            else if cfg.tokenSource = password then .ok r
            else if cfg.tokenSource = combined then .ok (l ++ r)
            else .error .invalidTokenSource

/-- The per-request observable state of `ServeHTTP`: the request's
`Authorization` header value (`""`, i.e. `[]`, when absent — Go
`Header.Get` returns `""` then), any `Authorization` header the
converter itself wrote on the response writer (the extended variant
never does), and how many times the next handler in the chain has been
invoked. -/
structure HttpState where
  reqAuth : Str
  respAuth : Str
  nextCalls : Nat
  deriving DecidableEq

/-- Model of `(e *AuthConverter) ServeHTTP`: extract a token from the
request's `Authorization` header; on success optionally base64-encode
it and set `Authorization` on the request to `targetType + " " +
token`; in every case invoke the next handler exactly once (modelled
by the `nextCalls` counter). -/
def serveHTTP (cfg : Config) (s : HttpState) : HttpState :=
  match getToken cfg s.reqAuth with
  | .error _ => { s with nextCalls := s.nextCalls + 1 }
  | .ok token =>
    let t := if cfg.encodeToken then encodeBase64 token else token
    { s with reqAuth := cfg.targetType ++ 32 :: t, nextCalls := s.nextCalls + 1 }

/-- The construction-time failure: Go `errors.New("invalid token source")`
returned by `New`. -/
inductive ConfigError where
  | invalidTokenSource
  deriving DecidableEq

/-- The constructed handler (Go `AuthConverter` struct; the `next`
handler is abstracted away, the retained configuration is kept). -/
structure AuthConverter where
  config : Config
  deriving DecidableEq

/-- Model of `New`: membership of `config.tokenSource` in the Go map
`{username: true, password: true, unchanged: true, combined: true,
decoded: true}` gates construction. -/
def New (cfg : Config) : Except ConfigError AuthConverter :=
  if cfg.tokenSource = username ∨ cfg.tokenSource = password ∨
      cfg.tokenSource = unchanged ∨ cfg.tokenSource = combined ∨
      cfg.tokenSource = decoded then
    .ok ⟨cfg⟩
  else
    .error .invalidTokenSource

/-- Go `CreateConfig` of the extended variant. -/
def CreateConfig : Config :=
  { tokenSource := combined, encodeToken := false, sourceType := basic, targetType := bearer }

/-! ## Helper lemmas -/

/-- Splitting at the first occurrence of the separator: when the part
before the separator is separator-free, `splitFirst` finds exactly it. -/
theorem splitFirst_append (sep : Nat) (l r : Str) (h : sep ∉ l) :
    splitFirst sep (l ++ sep :: r) = some (l, r) := by
  induction l with
  | nil => simp [splitFirst]
  | cons a tl ih =>
    have ha : ¬ a = sep := fun hc => h (hc ▸ List.mem_cons_self a tl)
    simp only [List.cons_append, splitFirst, if_neg ha, List.append_eq]
    rw [ih fun hm => h (List.mem_cons_of_mem a hm)]

/-- A separator-free byte string does not split. -/
theorem splitFirst_eq_none (sep : Nat) (s : Str) (h : sep ∉ s) :
    splitFirst sep s = none := by
  induction s with
  | nil => rfl
  | cons a tl ih =>
    have ha : ¬ a = sep := fun hc => h (hc ▸ List.mem_cons_self a tl)
    simp only [splitFirst, if_neg ha]
    rw [ih fun hm => h (List.mem_cons_of_mem a hm)]

/-- Decoding inverts the alphabet lookup on in-range sextets. -/
theorem b64Index_b64Char {i : Nat} (h : i < 64) : b64Index (b64Char i) = some i := by
  have hall : ∀ j, j < 64 → b64Index (b64Char j) = some j := by decide
  exact hall i h

/-- No alphabet byte (nor the out-of-range default 0) is carriage
return, line feed, space, or the padding byte. -/
theorem b64Char_ne (i : Nat) :
    b64Char i ≠ 13 ∧ b64Char i ≠ 10 ∧ b64Char i ≠ 32 ∧ b64Char i ≠ 61 := by
  by_cases h : i < 64
  · have hall : ∀ j, j < 64 →
        b64Char j ≠ 13 ∧ b64Char j ≠ 10 ∧ b64Char j ≠ 32 ∧ b64Char j ≠ 61 := by decide
    exact hall i h
  · have hlen : b64Alphabet.length ≤ i := by
      have h64 : b64Alphabet.length = 64 := by decide
      omega
    unfold b64Char
    rw [List.getD_eq_default _ _ hlen]
    refine ⟨by decide, by decide, by decide, by decide⟩

/-- Every byte of a base64 encoding is either the padding byte or an
alphabet byte; in particular it is not CR, LF or space. -/
theorem encodeBase64_no_ws : ∀ (s : Str), ∀ x ∈ encodeBase64 s, x ≠ 13 ∧ x ≠ 10 ∧ x ≠ 32
  | [], _, hx => absurd hx (List.not_mem_nil _)
  | [a], x, hx => by
    simp only [encodeBase64, List.mem_cons, List.not_mem_nil, or_false] at hx
    rcases hx with h | h | h | h <;> subst h
    · exact ⟨(b64Char_ne _).1, (b64Char_ne _).2.1, (b64Char_ne _).2.2.1⟩
    · exact ⟨(b64Char_ne _).1, (b64Char_ne _).2.1, (b64Char_ne _).2.2.1⟩
    · exact ⟨by decide, by decide, by decide⟩
    · exact ⟨by decide, by decide, by decide⟩
  | [a, b], x, hx => by
    simp only [encodeBase64, List.mem_cons, List.not_mem_nil, or_false] at hx
    rcases hx with h | h | h | h <;> subst h
    · exact ⟨(b64Char_ne _).1, (b64Char_ne _).2.1, (b64Char_ne _).2.2.1⟩
    · exact ⟨(b64Char_ne _).1, (b64Char_ne _).2.1, (b64Char_ne _).2.2.1⟩
    · exact ⟨(b64Char_ne _).1, (b64Char_ne _).2.1, (b64Char_ne _).2.2.1⟩
    · exact ⟨by decide, by decide, by decide⟩
  | a :: b :: c :: rest, x, hx => by
    simp only [encodeBase64, List.mem_cons] at hx
    rcases hx with h | h | h | h | h
    · subst h; exact ⟨(b64Char_ne _).1, (b64Char_ne _).2.1, (b64Char_ne _).2.2.1⟩
    · subst h; exact ⟨(b64Char_ne _).1, (b64Char_ne _).2.1, (b64Char_ne _).2.2.1⟩
    · subst h; exact ⟨(b64Char_ne _).1, (b64Char_ne _).2.1, (b64Char_ne _).2.2.1⟩
    · subst h; exact ⟨(b64Char_ne _).1, (b64Char_ne _).2.1, (b64Char_ne _).2.2.1⟩
    · exact encodeBase64_no_ws rest x h

/-- The space byte never occurs in a base64 encoding. -/
theorem space_not_mem_encodeBase64 (s : Str) : 32 ∉ encodeBase64 s :=
  fun h => (encodeBase64_no_ws s 32 h).2.2 rfl

/-- The newline filter of the decoder leaves a base64 encoding as is. -/
theorem filter_encodeBase64 (s : Str) :
    (encodeBase64 s).filter (fun b => !(b == 13 || b == 10)) = encodeBase64 s := by
  apply List.filter_eq_self.mpr
  intro a ha
  have h := encodeBase64_no_ws s a ha
  simp [beq_iff_eq, h.1, h.2.1]

/-- Quantum-level round trip: decoding an encoding recovers every byte
string. -/
theorem decodeBlocks_encodeBase64 : ∀ (s : Str), (∀ b ∈ s, b < 256) →
    decodeBlocks (encodeBase64 s) = some s
  | [], _ => rfl
  | [a], h => by
    have ha : a < 256 := h a (List.mem_cons_self a [])
    have h1 : b64Index (b64Char (a / 4)) = some (a / 4) := b64Index_b64Char (by omega)
    have h2 : b64Index (b64Char (a % 4 * 16)) = some (a % 4 * 16) := b64Index_b64Char (by omega)
    simp only [encodeBase64, decodeBlocks, h1, h2, and_self, and_true, if_true]
    simp only [Option.some.injEq, List.cons.injEq, and_true]
    omega
  | [a, b], h => by
    have ha : a < 256 := h a (by simp)
    have hb : b < 256 := h b (by simp)
    have h1 : b64Index (b64Char (a / 4)) = some (a / 4) := b64Index_b64Char (by omega)
    have h2 : b64Index (b64Char (a % 4 * 16 + b / 16)) = some (a % 4 * 16 + b / 16) :=
      b64Index_b64Char (by omega)
    have h3 : b64Index (b64Char (b % 16 * 4)) = some (b % 16 * 4) := b64Index_b64Char (by omega)
    have hne : b64Char (b % 16 * 4) ≠ 61 := (b64Char_ne _).2.2.2
    simp only [encodeBase64, decodeBlocks, h1, h2, h3, hne, false_and, if_false, and_self,
      and_true, if_true]
    simp only [Option.some.injEq, List.cons.injEq, and_true]
    omega
  | a :: b :: c :: rest, h => by
    have ha : a < 256 := h a (by simp)
    have hb : b < 256 := h b (by simp)
    have hc : c < 256 := h c (by simp)
    have h1 : b64Index (b64Char (a / 4)) = some (a / 4) := b64Index_b64Char (by omega)
    have h2 : b64Index (b64Char (a % 4 * 16 + b / 16)) = some (a % 4 * 16 + b / 16) :=
      b64Index_b64Char (by omega)
    have h3 : b64Index (b64Char (b % 16 * 4 + c / 64)) = some (b % 16 * 4 + c / 64) :=
      b64Index_b64Char (by omega)
    have h4 : b64Index (b64Char (c % 64)) = some (c % 64) := b64Index_b64Char (by omega)
    have hne3 : b64Char (b % 16 * 4 + c / 64) ≠ 61 := (b64Char_ne _).2.2.2
    have hne4 : b64Char (c % 64) ≠ 61 := (b64Char_ne _).2.2.2
    have ih : decodeBlocks (encodeBase64 rest) = some rest :=
      decodeBlocks_encodeBase64 rest fun x hx => h x (by simp [hx])
    simp only [encodeBase64, decodeBlocks, h1, h2, h3, h4, hne3, hne4, false_and, if_false, ih]
    simp only [Option.some.injEq, List.cons.injEq, and_true]
    omega

/-- Go's `DecodeString` inverts Go's `EncodeToString` on byte strings. -/
theorem decodeBase64_encodeBase64 (s : Str) (h : ∀ b ∈ s, b < 256) :
    decodeBase64 (encodeBase64 s) = some s := by
  unfold decodeBase64
  rw [filter_encodeBase64, decodeBlocks_encodeBase64 s h]

/-! ## Claims -/

/-- C1: for every header of the form `"Basic " + base64(u + ":" + p)`
with `u` colon-free, extraction with `token_source = combined` and
`source_type = "Basic"` succeeds and returns `u + p`, the username
concatenated directly with the password, no separator. -/
theorem getToken_combined_concat (u p : Str) (hu : (58 : Nat) ∉ u)
    (hub : ∀ b ∈ u, b < 256) (hpb : ∀ b ∈ p, b < 256) (enc : Bool) (tt : Str) :
    getToken ⟨combined, enc, basic, tt⟩ (basic ++ 32 :: encodeBase64 (u ++ 58 :: p)) =
      .ok (u ++ p) := by
  have hbytes : ∀ b ∈ u ++ 58 :: p, b < 256 := by
    intro b hb
    rcases List.mem_append.mp hb with h | h
    · exact hub b h
    · rcases List.mem_cons.mp h with h | h
      · omega
      · exact hpb b h
  have hdec : decodeBase64 (encodeBase64 (u ++ 58 :: p)) = some (u ++ 58 :: p) :=
    decodeBase64_encodeBase64 _ hbytes
  have hsp2 : splitFirst 58 (u ++ 58 :: p) = some (u, p) := splitFirst_append 58 u p hu
  have hne1 : combined ≠ unchanged := by decide
  have hne2 : combined ≠ decoded := by decide
  have hne3 : combined ≠ username := by decide
  have hne4 : combined ≠ password := by decide
  unfold getToken
  rw [splitFirst_append 32 basic _ (by decide)]
  simp [hdec, hsp2, hne1, hne2, hne3, hne4]

/-- C1 witness: the repository's own fixture credential. -/
theorem getToken_combined_concat_witness :
    getToken ⟨combined, false, basic, bearer⟩
        (strBytes "Basic dXNlcl9sb2dpbjp1c2VyX3Bhc3N3b3Jk") =
      .ok (strBytes "user_loginuser_password") :=
  getToken_combined_concat (strBytes "user_login") (strBytes "user_password")
    (by decide) (by decide) (by decide) false bearer

/-- C2: whenever extraction fails, the request-time handler leaves the
whole per-request state untouched apart from forwarding, and in every
case — success or failure — the next handler is invoked exactly once. -/
theorem serveHTTP_fail_open :
    (∀ (cfg : Config) (s : HttpState) (e : ExtractionError),
        getToken cfg s.reqAuth = .error e →
        serveHTTP cfg s = { s with nextCalls := s.nextCalls + 1 }) ∧
    (∀ (cfg : Config) (s : HttpState), (serveHTTP cfg s).nextCalls = s.nextCalls + 1) := by
  constructor
  · intro cfg s e he
    unfold serveHTTP
    rw [he]
  · intro cfg s
    unfold serveHTTP
    cases hg : getToken cfg s.reqAuth <;> simp

/-- C2 witness: a `Bearer` header under `sourceType = Basic` is left
byte-for-byte unchanged and the request is still forwarded once. -/
theorem serveHTTP_fail_open_witness :
    serveHTTP ⟨combined, false, basic, bearer⟩
        ⟨strBytes "Bearer YTtkbmdhb3VpcmduYXdvZ2lu", [], 0⟩ =
      ⟨strBytes "Bearer YTtkbmdhb3VpcmduYXdvZ2lu", [], 1⟩ ∧
    (serveHTTP ⟨combined, false, basic, bearer⟩
        ⟨strBytes "Bearer YTtkbmdhb3VpcmduYXdvZ2lu", [], 0⟩).nextCalls = 1 :=
  ⟨serveHTTP_fail_open.1 _ _ .schemeMismatch (by decide), serveHTTP_fail_open.2 _ _⟩

/-- C3: construction succeeds exactly for the five recognized token
sources, and fails with the configuration error on any other value. -/
theorem New_valid_iff :
    (∀ cfg : Config, (∃ a, New cfg = .ok a) ↔
      (cfg.tokenSource = username ∨ cfg.tokenSource = password ∨
       cfg.tokenSource = combined ∨ cfg.tokenSource = unchanged ∨
       cfg.tokenSource = decoded)) ∧
    (∀ cfg : Config,
      ¬(cfg.tokenSource = username ∨ cfg.tokenSource = password ∨
        cfg.tokenSource = combined ∨ cfg.tokenSource = unchanged ∨
        cfg.tokenSource = decoded) →
      New cfg = .error .invalidTokenSource) := by
  constructor
  · intro cfg
    constructor
    · rintro ⟨a, ha⟩
      unfold New at ha
      by_cases h : cfg.tokenSource = username ∨ cfg.tokenSource = password ∨
          cfg.tokenSource = unchanged ∨ cfg.tokenSource = combined ∨
          cfg.tokenSource = decoded
      · tauto
      · rw [if_neg h] at ha
        exact absurd ha (by simp)
    · intro h
      unfold New
      rw [if_pos (by tauto)]
      exact ⟨⟨cfg⟩, rfl⟩
  · intro cfg h
    unfold New
    rw [if_neg (by tauto)]

/-- C3 witness: `"not_a_source"` is rejected, `"decoded"` is accepted. -/
theorem New_valid_iff_witness :
    New ⟨strBytes "not_a_source", true, basic, bearer⟩ = .error .invalidTokenSource ∧
    (∃ a, New ⟨decoded, false, basic, bearer⟩ = .ok a) :=
  ⟨New_valid_iff.2 _ (by decide), (New_valid_iff.1 _).mpr (by decide)⟩

/-- C4: on extraction success the handler sets the request's header to
`target_type + " " + t` (with `t` base64-encoded when `encode_token`),
replacing the prior value; the response stays untouched and the chain
is still forwarded to. -/
theorem serveHTTP_success_rewrite (cfg : Config) (s : HttpState) (token : Str)
    (h : getToken cfg s.reqAuth = .ok token) :
    (serveHTTP cfg s).reqAuth =
      cfg.targetType ++ 32 :: (if cfg.encodeToken then encodeBase64 token else token) ∧
    (serveHTTP cfg s).respAuth = s.respAuth ∧
    (serveHTTP cfg s).nextCalls = s.nextCalls + 1 := by
  unfold serveHTTP
  rw [h]
  exact ⟨rfl, rfl, rfl⟩

/-- C4 witness: the fixture request rewritten to the `Digest` scheme. -/
theorem serveHTTP_success_rewrite_witness :
    (serveHTTP ⟨combined, false, basic, digest⟩
        ⟨strBytes "Basic ZFhObGNsOXNiMmRwYm5WOnpaWEpmY0dGemMzZHZjbVE9", [], 0⟩).reqAuth =
      strBytes "Digest dXNlcl9sb2dpbnVzZXJfcGFzc3dvcmQ=" ∧
    (serveHTTP ⟨combined, false, basic, digest⟩
        ⟨strBytes "Basic ZFhObGNsOXNiMmRwYm5WOnpaWEpmY0dGemMzZHZjbVE9", [], 0⟩).respAuth = [] ∧
    (serveHTTP ⟨combined, false, basic, digest⟩
        ⟨strBytes "Basic ZFhObGNsOXNiMmRwYm5WOnpaWEpmY0dGemMzZHZjbVE9", [], 0⟩).nextCalls = 1 :=
  serveHTTP_success_rewrite _ _ (strBytes "dXNlcl9sb2dpbnVzZXJfcGFzc3dvcmQ=") (by decide)

/-- C5: the extractor checks its failure conditions in order: no space
→ `MalformedHeader`; wrong scheme → `SchemeMismatch`; then (sources
other than `unchanged`) decode failure → `DecodeError`; then (splitting
sources) non-`Basic` scheme → `UnsupportedSourceForSplit`; then missing
colon → `MalformedCredential`. -/
theorem getToken_error_order :
    (∀ (cfg : Config) (header : Str), splitFirst 32 header = none →
        getToken cfg header = .error .malformedHeader) ∧
    (∀ (cfg : Config) (header scheme payload : Str),
        splitFirst 32 header = some (scheme, payload) → scheme ≠ cfg.sourceType →
        getToken cfg header = .error .schemeMismatch) ∧
    (∀ (cfg : Config) (header scheme payload : Str),
        splitFirst 32 header = some (scheme, payload) → scheme = cfg.sourceType →
        cfg.tokenSource ≠ unchanged → decodeBase64 payload = none →
        getToken cfg header = .error .decodeError) ∧
    (∀ (cfg : Config) (header scheme payload dec : Str),
        splitFirst 32 header = some (scheme, payload) → scheme = cfg.sourceType →
        (cfg.tokenSource = username ∨ cfg.tokenSource = password ∨
          cfg.tokenSource = combined) →
        decodeBase64 payload = some dec → cfg.sourceType ≠ basic →
        getToken cfg header = .error .unsupportedSourceForSplit) ∧
    (∀ (cfg : Config) (header scheme payload dec : Str),
        splitFirst 32 header = some (scheme, payload) → scheme = cfg.sourceType →
        (cfg.tokenSource = username ∨ cfg.tokenSource = password ∨
          cfg.tokenSource = combined) →
        decodeBase64 payload = some dec → cfg.sourceType = basic →
        splitFirst 58 dec = none →
        getToken cfg header = .error .malformedCredential) := by
  refine ⟨?_, ?_, ?_, ?_, ?_⟩
  · intro cfg header hsp
    unfold getToken
    rw [hsp]
  · intro cfg header scheme payload hsp hne
    unfold getToken
    rw [hsp]
    simp [hne]
  · intro cfg header scheme payload hsp hsc hts hdec
    unfold getToken
    rw [hsp]
    simp [hsc, hts, hdec]
  · intro cfg header scheme payload dec hsp hsc hts hdec hnb
    have h1 : cfg.tokenSource ≠ unchanged := by
      rcases hts with h | h | h <;> rw [h] <;> decide
    have h2 : cfg.tokenSource ≠ decoded := by
      rcases hts with h | h | h <;> rw [h] <;> decide
    unfold getToken
    rw [hsp]
    simp [hsc, h1, h2, hdec, hnb]
  · intro cfg header scheme payload dec hsp hsc hts hdec hb hs58
    have h1 : cfg.tokenSource ≠ unchanged := by
      rcases hts with h | h | h <;> rw [h] <;> decide
    have h2 : cfg.tokenSource ≠ decoded := by
      rcases hts with h | h | h <;> rw [h] <;> decide
    unfold getToken
    rw [hsp]
    simp [hsc, h1, h2, hdec, hb, hs58]

/-- C5 witness: each failure kind observed on a concrete request. -/
theorem getToken_error_order_witness :
    getToken ⟨password, false, basic, bearer⟩
        (strBytes "BearerYTtkbmdhb3VpcmduYXdvZ2lu") = .error .malformedHeader ∧
    getToken ⟨password, false, basic, bearer⟩
        (strBytes "Bearer YTtkbmdhb3VpcmduYXdvZ2lu") = .error .schemeMismatch ∧
    getToken ⟨password, false, basic, bearer⟩
        (strBytes "Basic dXNlcl9sb2dpbjp1c2VyX3Bhc3N3b3Jk-") = .error .decodeError ∧
    getToken ⟨password, false, bearer, bearer⟩
        (strBytes "Bearer dXNlcl9sb2dpbjp1c2VyX3Bhc3N3b3Jk") =
      .error .unsupportedSourceForSplit ∧
    getToken ⟨password, false, basic, bearer⟩
        (strBytes "Basic dXNlcl9sb2dpbnVzZXJfcGFzc3dvcmQ=") = .error .malformedCredential :=
  ⟨getToken_error_order.1 _ _ (by decide),
   getToken_error_order.2.1 _ _ (strBytes "Bearer") (strBytes "YTtkbmdhb3VpcmduYXdvZ2lu")
     (by decide) (by decide),
   getToken_error_order.2.2.1 _ _ (strBytes "Basic")
     (strBytes "dXNlcl9sb2dpbjp1c2VyX3Bhc3N3b3Jk-") (by decide) (by decide) (by decide)
     (by decide),
   getToken_error_order.2.2.2.1 _ _ (strBytes "Bearer")
     (strBytes "dXNlcl9sb2dpbjp1c2VyX3Bhc3N3b3Jk") (strBytes "user_login:user_password")
     (by decide) (by decide) (by decide) (by decide) (by decide),
   getToken_error_order.2.2.2.2 _ _ (strBytes "Basic")
     (strBytes "dXNlcl9sb2dpbnVzZXJfcGFzc3dvcmQ=") (strBytes "user_loginuser_password")
     (by decide) (by decide) (by decide) (by decide) (by decide) (by decide)⟩

/-- C6: with `token_source = unchanged` the payload is returned
verbatim, undecoded, whatever it is — valid base64 or not. -/
theorem getToken_unchanged_verbatim (cfg : Config) (p : Str)
    (hts : cfg.tokenSource = unchanged) (hst : (32 : Nat) ∉ cfg.sourceType) :
    getToken cfg (cfg.sourceType ++ 32 :: p) = .ok p := by
  unfold getToken
  rw [splitFirst_append 32 _ _ hst]
  simp [hts]

/-- C6 witness: a payload that is not valid base64 is still returned
byte-for-byte. -/
theorem getToken_unchanged_verbatim_witness :
    getToken ⟨unchanged, false, basic, bearer⟩ (strBytes "Basic !!not-base64!!") =
      .ok (strBytes "!!not-base64!!") ∧
    decodeBase64 (strBytes "!!not-base64!!") = none :=
  ⟨getToken_unchanged_verbatim ⟨unchanged, false, basic, bearer⟩
     (strBytes "!!not-base64!!") rfl (by decide), by decide⟩

/-- C7: with `token_source = decoded` and a valid base64 payload,
extraction returns the decoded bytes — colon or no colon — and the
scheme need not be `Basic`. -/
theorem getToken_decoded_bytes (cfg : Config) (p d : Str)
    (hts : cfg.tokenSource = decoded) (hst : (32 : Nat) ∉ cfg.sourceType)
    (hdec : decodeBase64 p = some d) :
    getToken cfg (cfg.sourceType ++ 32 :: p) = .ok d := by
  have hne : decoded ≠ unchanged := by decide
  unfold getToken
  rw [splitFirst_append 32 _ _ hst]
  simp [hts, hne, hdec]

/-- C7 witness: a non-`Basic` scheme and a colon-free decoding. -/
theorem getToken_decoded_bytes_witness :
    getToken ⟨decoded, false, bearer, digest⟩ (strBytes "Bearer YQ==") =
      .ok (strBytes "a") ∧
    (58 : Nat) ∉ strBytes "a" ∧ bearer ≠ basic :=
  ⟨getToken_decoded_bytes ⟨decoded, false, bearer, digest⟩ (strBytes "YQ==")
     (strBytes "a") rfl (by decide) (by decide), by decide, by decide⟩

/-- C8: with `encode_token = true` the emitted token is the standard
base64 encoding of the extracted token, and decoding the emitted value
recovers exactly the extracted token. -/
theorem serveHTTP_encode_roundtrip (cfg : Config) (s : HttpState) (token : Str)
    (h : getToken cfg s.reqAuth = .ok token) (henc : cfg.encodeToken = true)
    (hbytes : ∀ b ∈ token, b < 256) :
    (serveHTTP cfg s).reqAuth = cfg.targetType ++ 32 :: encodeBase64 token ∧
    decodeBase64 (encodeBase64 token) = some token := by
  constructor
  · unfold serveHTTP
    rw [h]
    simp [henc]
  · exact decodeBase64_encodeBase64 token hbytes

/-- C8 witness: the fixture request with `encodeToken = true`. -/
theorem serveHTTP_encode_roundtrip_witness :
    (serveHTTP ⟨combined, true, basic, bearer⟩
        ⟨strBytes "Basic dXNlcl9sb2dpbjp1c2VyX3Bhc3N3b3Jk", [], 0⟩).reqAuth =
      strBytes "Bearer dXNlcl9sb2dpbnVzZXJfcGFzc3dvcmQ=" ∧
    decodeBase64 (encodeBase64 (strBytes "user_loginuser_password")) =
      some (strBytes "user_loginuser_password") :=
  serveHTTP_encode_roundtrip _ _ (strBytes "user_loginuser_password")
    (by decide) rfl (by decide)

/-- C9: a header of scheme, single space, empty payload is not a
missing-space failure: the empty payload decodes to the empty string,
so `decoded` succeeds with the empty token (and the header becomes
`target_type + " "`), while the splitting sources fail on the missing
colon. -/
theorem getToken_empty_payload (cfg : Config) (hst : (32 : Nat) ∉ cfg.sourceType) :
    getToken cfg (cfg.sourceType ++ [32]) ≠ .error .malformedHeader ∧
    (cfg.tokenSource = decoded →
      getToken cfg (cfg.sourceType ++ [32]) = .ok [] ∧
      ∀ s : HttpState, s.reqAuth = cfg.sourceType ++ [32] →
        (serveHTTP cfg s).reqAuth = cfg.targetType ++ [32]) ∧
    ((cfg.tokenSource = username ∨ cfg.tokenSource = password ∨
        cfg.tokenSource = combined) →
      cfg.sourceType = basic →
      getToken cfg (cfg.sourceType ++ [32]) = .error .malformedCredential) := by
  have hd0 : decodeBase64 [] = some [] := rfl
  have hs58 : splitFirst 58 ([] : Str) = none := rfl
  have hbase : getToken cfg (cfg.sourceType ++ [32]) =
      (if cfg.tokenSource = unchanged then .ok ([] : Str)
       else if cfg.tokenSource = decoded then .ok ([] : Str)
       else if cfg.sourceType ≠ basic then .error .unsupportedSourceForSplit
       else .error .malformedCredential) := by
    unfold getToken
    rw [splitFirst_append 32 _ _ hst]
    simp [hd0, hs58]
  refine ⟨?_, ?_, ?_⟩
  · rw [hbase]
    split_ifs <;> simp
  · intro hts
    have hne : decoded ≠ unchanged := by decide
    have hok : getToken cfg (cfg.sourceType ++ [32]) = .ok [] := by
      rw [hbase]
      simp [hts, hne]
    refine ⟨hok, ?_⟩
    intro s hs
    unfold serveHTTP
    rw [hs, hok]
    cases cfg.encodeToken <;> rfl
  · intro hts hb
    have h1 : cfg.tokenSource ≠ unchanged := by
      rcases hts with h | h | h <;> rw [h] <;> decide
    have h2 : cfg.tokenSource ≠ decoded := by
      rcases hts with h | h | h <;> rw [h] <;> decide
    rw [hbase]
    simp [h1, h2, hb]

/-- C9 witness: empty payload under `decoded` succeeds and rewrites;
under `combined` it is a missing-colon failure. -/
theorem getToken_empty_payload_witness :
    getToken ⟨decoded, true, basic, bearer⟩ (basic ++ [32]) = .ok [] ∧
    (serveHTTP ⟨decoded, true, basic, bearer⟩ ⟨basic ++ [32], [], 0⟩).reqAuth =
      bearer ++ [32] ∧
    getToken ⟨combined, false, basic, bearer⟩ (basic ++ [32]) =
      .error .malformedCredential :=
  ⟨((getToken_empty_payload ⟨decoded, true, basic, bearer⟩ (by decide)).2.1 rfl).1,
   ((getToken_empty_payload ⟨decoded, true, basic, bearer⟩ (by decide)).2.1 rfl).2
     ⟨basic ++ [32], [], 0⟩ rfl,
   (getToken_empty_payload ⟨combined, false, basic, bearer⟩ (by decide)).2.2
     (Or.inr (Or.inr rfl)) rfl⟩

/-- C10: with `token_source = unchanged` and `encode_token = true` the
already-base64 payload is encoded a second time: the output header is
`target_type + " " + base64(p)`. -/
theorem serveHTTP_unchanged_double_encode (cfg : Config) (s : HttpState) (p : Str)
    (hts : cfg.tokenSource = unchanged) (henc : cfg.encodeToken = true)
    (hst : (32 : Nat) ∉ cfg.sourceType) (hreq : s.reqAuth = cfg.sourceType ++ 32 :: p) :
    (serveHTTP cfg s).reqAuth = cfg.targetType ++ 32 :: encodeBase64 p := by
  have hok : getToken cfg s.reqAuth = .ok p := by
    rw [hreq]
    unfold getToken
    rw [splitFirst_append 32 _ _ hst]
    simp [hts]
  unfold serveHTTP
  rw [hok]
  simp [henc]

/-- C10 witness: the payload `dXNlcg==` is emitted double-encoded as
`ZFhObGNnPT0=`, not equal to the original payload. -/
theorem serveHTTP_unchanged_double_encode_witness :
    (serveHTTP ⟨unchanged, true, basic, bearer⟩
        ⟨strBytes "Basic dXNlcg==", [], 0⟩).reqAuth =
      strBytes "Bearer ZFhObGNnPT0=" ∧
    encodeBase64 (strBytes "dXNlcg==") ≠ strBytes "dXNlcg==" :=
  ⟨serveHTTP_unchanged_double_encode ⟨unchanged, true, basic, bearer⟩
     ⟨strBytes "Basic dXNlcg==", [], 0⟩ (strBytes "dXNlcg==") rfl rfl (by decide) rfl,
   by decide⟩

end TraefikAuthConverter
